import Mathlib

/-!
Verification of the BGP node-status reporter (pkg/nodestatus/status.go).

Strings are modelled as lists of characters; Go string slicing str[n:]
carries an explicit bounds check (slicing past the length is a runtime
panic in Go, modelled by the ScanResult.sliceOutOfRange outcome).
Machine integers appear only in formatTimedelta, where the int64-to-uint64
conversion is modelled with an explicit modulus 2^64.
-/

/-- Convert a Lean string literal to the character-list representation used
throughout this development. -/
def chars (s : String) : List Char := s.data

/-- Whitespace test matching Go unicode.IsSpace on the Latin-1 range
(space, tab, newline, vertical tab, form feed, carriage return, NEL, NBSP);
all inputs handled by the scanner are ASCII. -/
def isSpaceChar (c : Char) : Bool :=
  c == ' ' || c == '\t' || c == '\n' || c == '\r' ||
  c.val == 11 || c.val == 12 || c.val == 133 || c.val == 160

/-- Accumulator-based worker for fields: collects the current word (reversed)
and splits on whitespace runs, as Go strings.Fields does. -/
def fieldsAux : List Char → List Char → List (List Char)
  | [], acc => if acc.isEmpty then [] else [acc.reverse]
  | c :: cs, acc =>
    if isSpaceChar c then
      if acc.isEmpty then fieldsAux cs [] else acc.reverse :: fieldsAux cs []
    else fieldsAux cs (c :: acc)

/-- Go strings.Fields: split around runs of whitespace, no empty fields. -/
def fields (s : List Char) : List (List Char) := fieldsAux s []

/-- Go strings.HasPrefix on the character-list representation. -/
def startsWith : List Char → List Char → Bool
  | [], _ => true
  | _ :: _, [] => false
  | p :: ps, c :: cs => (p == c) && startsWith ps cs

/-- Go strings.Replace(s, underscore, sep, -1): every underscore replaced. -/
def replaceUnderscores (sep : List Char) : List Char → List Char
  | [] => []
  | c :: cs => if c == '_' then sep ++ replaceUnderscores sep cs
               else c :: replaceUnderscores sep cs

/-- Go strings.Join(xs, single space). -/
def joinSpace : List (List Char) → List Char
  | [] => []
  | [x] => x
  | x :: xs => x ++ ' ' :: joinSpace xs

/-- RE2 dot: any character except newline; used by the peer-name regex. -/
def noNewline (s : List Char) : Bool := s.all fun c => !(c == '\n')

/-- One alternative of bgpPeerRegex: the string is kind, underscore, then a
nonempty newline-free remainder (the capture of the dot-plus group). -/
def tryKind (kind s : List Char) : Option (List Char × List Char) :=
  if startsWith (kind ++ ['_']) s then
    if (s.drop (kind.length + 1)).isEmpty then none
    else if noNewline (s.drop (kind.length + 1)) then
      some (kind, s.drop (kind.length + 1))
    else none
  else none

/-- The regex (caret)(Global|Node|Mesh)_(dot-plus)(dollar) from status.go line
124: on a match, returns the kind capture and the raw-address capture. -/
def bgpPeerRegexMatch (s : List Char) : Option (List Char × List Char) :=
  tryKind (chars "Global") s <|> tryKind (chars "Node") s <|> tryKind (chars "Mesh") s

/-- bgpTypeMap from status.go lines 127-131: kind token to display string. -/
def bgpTypeMap (kind : List Char) : Option (List Char) :=
  if kind = chars "Global" then some (chars "global")
  else if kind = chars "Mesh" then some (chars "node-to-node mesh")
  else if kind = chars "Node" then some (chars "node specific")
  else none

/-- birdExpectedHeadings from status.go line 137. -/
def birdExpectedHeadings : List (List Char) :=
  [chars "name", chars "proto", chars "table", chars "state", chars "since", chars "info"]

/-- bgpPeer from status.go lines 140-147. -/
structure bgpPeer where
  PeerIP : List Char
  PeerType : List Char
  State : List Char
  Since : List Char
  BGPState : List Char
  Info : List Char
  deriving DecidableEq

/-- The name-decoding section of unmarshalBIRD (status.go lines 173-183):
regex match, display-type lookup, and underscore-to-delimiter rewriting of
the raw address capture. Returns (display type, address). -/
def decodePeerName (s ipSep : List Char) : Option (List Char × List Char) :=
  match bgpPeerRegexMatch s with
  | none => none
  | some (kind, rawAddr) =>
    match bgpTypeMap kind with
    | none => none
    | some disp => some (disp, replaceUnderscores ipSep rawAddr)

/-- unmarshalBIRD (status.go lines 151-194). The Go method returns a bool and
fills the receiver; here a successful parse returns the filled record.
columns abbreviates fields line, computed once in the source. -/
def unmarshalBIRD (line ipSep : List Char) : Option bgpPeer :=
  if (fields line).length < 6 then none
  else if (fields line).getD 1 [] ≠ chars "BGP" then none
  else
    match decodePeerName ((fields line).getD 0 []) ipSep with
    | none => none
    | some (disp, ip) =>
      some { PeerIP := ip
           , PeerType := disp
           , State := (fields line).getD 3 []
           , Since := (fields line).getD 4 []
           , BGPState := (fields line).getD 5 []
           , Info := joinSpace ((fields line).drop 6) }

/-- The two terminal parse errors of scanBIRDPeers: the Go messages are
"unknown BIRD table output format" (line 291) and
"unexpected output line from BIRD" (line 307). -/
inductive ScanError where
  | unknownTableFormat
  | unexpectedOutputLine
  deriving DecidableEq

/-- Outcome of one scan. ok carries the accumulated peers (Go returns
(peers, nil)); err carries no peers (Go returns (nil, error));
sliceOutOfRange models the Go runtime panic raised by str[5:] when the
line is shorter than 5 bytes. -/
inductive ScanResult where
  | ok (peers : List bgpPeer)
  | err (e : ScanError)
  | sliceOutOfRange
  deriving DecidableEq

/-- The line-dispatch loop of scanBIRDPeers (status.go lines 277-315), one
step per input line, accumulating peers in response order. Reaching the end
of the line list models the scanner stopping with no transport error. -/
def scanLines (ipSep : List Char) : List (List Char) → List bgpPeer → ScanResult
  | [], acc => .ok acc
  | str :: rest, acc =>
    if startsWith (chars "0000") str then .ok acc
    else if startsWith (chars "0001") str then scanLines ipSep rest acc
    else if startsWith (chars "2002") str then
      if str.length < 5 then .sliceOutOfRange
      else if fields (str.drop 5) = birdExpectedHeadings then scanLines ipSep rest acc
      else .err .unknownTableFormat
    else if startsWith (chars "1002") str then
      if str.length < 5 then .sliceOutOfRange
      else
        match unmarshalBIRD (str.drop 5) ipSep with
        | some p => scanLines ipSep rest (acc ++ [p])
        | none => scanLines ipSep rest acc
    else if startsWith [' '] str then
      match unmarshalBIRD (str.drop 1) ipSep with
      | some p => scanLines ipSep rest (acc ++ [p])
      | none => scanLines ipSep rest acc
    else .err .unexpectedOutputLine

/-- scanBIRDPeers (status.go lines 254-316): pick the address delimiter from
the IP version, then run the dispatch loop on the line stream. -/
def scanBIRDPeers (ipv : List Char) (lines : List (List Char)) : ScanResult :=
  scanLines (if ipv = chars "6" then chars ":" else chars ".") lines []

/-- Instrumentation of scanLines counting how many times the header-shape
comparison of status.go line 290 (reflect.DeepEqual against
birdExpectedHeadings) is evaluated during one scan. The control flow is
identical to scanLines; a 2002 line shorter than 5 bytes panics before the
comparison runs, and a failed comparison ends the scan. -/
def scanLinesChecks (ipSep : List Char) : List (List Char) → Nat
  | [] => 0
  | str :: rest =>
    if startsWith (chars "0000") str then 0
    else if startsWith (chars "0001") str then scanLinesChecks ipSep rest
    else if startsWith (chars "2002") str then
      if str.length < 5 then 0
      else if fields (str.drop 5) = birdExpectedHeadings then 1 + scanLinesChecks ipSep rest
      else 1
    else if startsWith (chars "1002") str then
      if str.length < 5 then 0
      else scanLinesChecks ipSep rest
    else if startsWith [' '] str then scanLinesChecks ipSep rest
    else 0

/-- The per-process matching loop inside psContains (status.go lines 104-111):
walk the expected argument vector with its index, break when the candidate
vector runs out, and record a match when the tokens at one index agree.
The match flag is never reset, so the result is an OR over positions. -/
def psMatchesProcess : List String → List String → Bool
  | [], _ => false
  | _ :: _, [] => false
  | p :: ps, c :: cs => (c == p) || psMatchesProcess ps cs

/-- psContains (status.go lines 95-120). A process whose command line could
not be read (none) is skipped. -/
def psContains (proc : List String) (procList : List (Option (List String))) : Bool :=
  procList.any fun cmds =>
    match cmds with
    | none => false
    | some cs => psMatchesProcess proc cs

/-- The matching predicate as the spec words it (section 6): true iff the
candidate vector's leading tokens equal the expected vector element-wise.
This definition follows the spec text, for comparison with psMatchesProcess. -/
def matchesSpec : List String → List String → Bool
  | [], _ => true
  | _ :: _, [] => false
  | e :: es, c :: cs => (c == e) && matchesSpec es cs

/-- One table row built by printPeers (status.go lines 415-428): the Info
column is the BGP state, extended with a space and the info text if any. -/
def peerRow (p : bgpPeer) : List (List Char) :=
  [p.PeerIP, p.PeerType, p.State, p.Since,
   if p.Info = [] then p.BGPState else p.BGPState ++ ' ' :: p.Info]

/-- The data rows printPeers appends to the table, in order. -/
def printPeersRows (peers : List bgpPeer) : List (List (List Char)) :=
  peers.map peerRow

/-- What the caller emits after a successful scan: either the no-peers
message or a rendered table with its data rows. -/
inductive RenderOutcome where
  | noPeersMessage
  | table (rows : List (List (List Char)))
  deriving DecidableEq

/-- The post-scan branch of printBIRDPeers (status.go lines 239-246, same
shape in printGoBGPPeers lines 399-406): an empty peer list prints the
"No IPv%s peers found." message and printPeers is never called. -/
def renderPeers (peers : List bgpPeer) : RenderOutcome :=
  if peers.length = 0 then .noPeersMessage
  else .table (printPeersRows peers)

/-- Decimal digit character. -/
def digitChar (n : Nat) : Char := Char.ofNat (48 + n)

/-- Fuelled decimal printer; the fuel n+1 always suffices for n. -/
def natDigitsAux : Nat → Nat → List Char
  | _, 0 => []
  | n, fuel + 1 =>
    if n < 10 then [digitChar n]
    else natDigitsAux (n / 10) fuel ++ [digitChar (n % 10)]

/-- Decimal representation of a Nat, as Go fmt %d prints it. -/
def natRepr (n : Nat) : List Char := natDigitsAux n (n + 1)

/-- Go fmt %02d: zero-pad to at least two digits. -/
def pad2 (n : Nat) : List Char :=
  if n < 10 then '0' :: natRepr n else natRepr n

/-- formatTimedelta (status.go lines 340-358): convert the signed second
count to uint64 (explicit modulus 2^64), negate modulo 2^64 when the input
was negative, then split into days, hours, minutes, seconds; days are
omitted when zero, the rest is zero-padded to two digits. -/
def formatTimedelta (d : Int) : List Char :=
  let u0 : Nat := (d % (18446744073709551616 : Int)).toNat
  let u : Nat := if d < 0 then (18446744073709551616 - u0) % 18446744073709551616 else u0
  let secs := u % 60
  let mins := u / 60 % 60
  let hours := u / 60 / 60 % 24
  let days := u / 60 / 60 / 24
  if days = 0 then pad2 hours ++ ':' :: pad2 mins ++ ':' :: pad2 secs
  else natRepr days ++ 'd' :: ' ' :: (pad2 hours ++ ':' :: pad2 mins ++ ':' :: pad2 secs)

/-- A status line that parses successfully, used by witnesses. -/
def sampleLine : List Char := chars "Mesh_1_2_3_4 BGP master up 2016-11-21 Established"

/-- The record sampleLine parses to, used by witnesses. -/
def samplePeer : bgpPeer :=
  { PeerIP := chars "1.2.3.4"
  , PeerType := chars "node-to-node mesh"
  , State := chars "up"
  , Since := chars "2016-11-21"
  , BGPState := chars "Established"
  , Info := [] }

/-- Claim C1: on the well-formed four-line response (header, a 1002 first
data row for Mesh_192_168_56_101, a continuation row for Global_10_0_0_5
with trailing info, and the 0000 sentinel), the IPv4 scan succeeds and
returns exactly the two expected records in response order. -/
theorem C1_scan_wellformed :
    scanBIRDPeers (chars "4")
      [chars "2002 name proto table state since info",
       chars "1002 Mesh_192_168_56_101 BGP master up 2016-11-21 Established",
       chars " Global_10_0_0_5 BGP master up 2016-11-22 Connect extra info here",
       chars "0000"] =
    ScanResult.ok
      [{ PeerIP := chars "192.168.56.101", PeerType := chars "node-to-node mesh",
         State := chars "up", Since := chars "2016-11-21",
         BGPState := chars "Established", Info := [] },
       { PeerIP := chars "10.0.0.5", PeerType := chars "global",
         State := chars "up", Since := chars "2016-11-22",
         BGPState := chars "Connect", Info := chars "extra info here" }] := by
  decide

/-- Claim C8: the duration formatter renders 3661 seconds as 01:01:01 and
90000 seconds as 1d 01:00:00. -/
theorem C8_format_timedelta :
    formatTimedelta 3661 = chars "01:01:01" ∧
    formatTimedelta 90000 = chars "1d 01:00:00" := by
  decide

/-- startsWith p s holds exactly when s is p followed by some tail. -/
theorem startsWith_true_iff (p : List Char) : ∀ s : List Char,
    startsWith p s = true ↔ ∃ t, s = p ++ t := by
  induction p with
  | nil => intro s; simp [startsWith]
  | cons c cs ih =>
    intro s
    cases s with
    | nil => simp [startsWith]
    | cons a as =>
      simp only [startsWith, Bool.and_eq_true, beq_iff_eq, ih, List.cons_append,
        List.cons.injEq]
      constructor
      · rintro ⟨rfl, t, rfl⟩
        exact ⟨t, rfl, rfl⟩
      · rintro ⟨t, rfl, rfl⟩
        exact ⟨rfl, t, rfl⟩

/-- Claim C2 counterexample: this stream contains a 2002-prefixed row whose
remainder does not tokenize to the expected headings, yet the scan (which
hits the 0000 sentinel first) terminates successfully, not with the
header-shape error. -/
theorem C2_counterexample :
    scanBIRDPeers (chars "4") [chars "0000", chars "2002 x"] = ScanResult.ok [] ∧
    startsWith (chars "2002") (chars "2002 x") = true ∧
    fields ((chars "2002 x").drop 5) ≠ birdExpectedHeadings := by
  decide

/-- Claim C2 (amended): whenever the line the scan is about to process is a
2002-prefixed row of length at least 5 whose remainder does not tokenize to
exactly the expected headings, the scan terminates immediately with the
header-shape error, discarding every accumulated record. -/
theorem C2_amended : ∀ (sep str : List Char) (rest : List (List Char)) (acc : List bgpPeer),
    startsWith (chars "2002") str = true →
    5 ≤ str.length →
    fields (str.drop 5) ≠ birdExpectedHeadings →
    scanLines sep (str :: rest) acc = ScanResult.err ScanError.unknownTableFormat := by
  intro sep str rest acc hs h5 hf
  obtain ⟨t, rfl⟩ := (startsWith_true_iff (chars "2002") str).mp hs
  have e0 : startsWith (chars "0000") (chars "2002" ++ t) = false := rfl
  have e1 : startsWith (chars "0001") (chars "2002" ++ t) = false := rfl
  have e2 : startsWith (chars "2002") (chars "2002" ++ t) = true := rfl
  have hlen : ¬((chars "2002" ++ t).length < 5) := by omega
  rw [scanLines]
  simp only [e0, e1, e2, Bool.false_eq_true, if_false, if_true]
  rw [if_neg hlen, if_neg hf]

/-- Claim C2 witness: the amended statement applied to a concrete malformed
header line. -/
theorem C2_amended_witness :
    scanLines (chars ".") [chars "2002 bad"] [] = ScanResult.err ScanError.unknownTableFormat :=
  C2_amended (chars ".") (chars "2002 bad") [] [] (by decide) (by decide) (by decide)

/-- Claim C3: evaluation at the failing input. The per-process matching loop
returns true for expected vector [calico-node, -felix] against candidate
[calico-node, -bird], because a single positional agreement sets the match
flag and it is never reset; the spec predicate (element-wise equality of
the leading tokens) is false there, and psContains over a one-process list
reports the same spurious match. -/
theorem C3_code_eval :
    psMatchesProcess ["calico-node", "-felix"] ["calico-node", "-bird"] = true ∧
    matchesSpec ["calico-node", "-felix"] ["calico-node", "-bird"] = false ∧
    psContains ["calico-node", "-felix"] [some ["calico-node", "-bird"]] = true := by
  decide

/-- Claim C4: the name decoder on Mesh_10_0_0_1 with delimiter dot yields the
mesh display kind and address 10.0.0.1; on Mesh_fd80_24e2_f998_72d7__2 with
delimiter colon it yields fd80:24e2:f998:72d7::2; and in general, for any
nonempty newline-free raw token after the Mesh_ marker, every underscore in
the token is rewritten to the supplied delimiter uniformly. -/
theorem C4_name_decoder :
    decodePeerName (chars "Mesh_10_0_0_1") (chars ".") =
      some (chars "node-to-node mesh", chars "10.0.0.1") ∧
    decodePeerName (chars "Mesh_fd80_24e2_f998_72d7__2") (chars ":") =
      some (chars "node-to-node mesh", chars "fd80:24e2:f998:72d7::2") ∧
    ∀ (rest sep : List Char), rest ≠ [] → noNewline rest = true →
      decodePeerName (chars "Mesh_" ++ rest) sep =
        some (chars "node-to-node mesh", replaceUnderscores sep rest) := by
  refine ⟨by decide, by decide, ?_⟩
  intro rest sep h1 h2
  cases rest with
  | nil => exact absurd rfl h1
  | cons r rs =>
    have hm : bgpPeerRegexMatch (chars "Mesh_" ++ (r :: rs)) = some (chars "Mesh", r :: rs) := by
      have e : bgpPeerRegexMatch (chars "Mesh_" ++ (r :: rs)) =
          if noNewline (r :: rs) then some (chars "Mesh", r :: rs) else none := rfl
      rw [e, if_pos h2]
    unfold decodePeerName
    rw [hm]
    rfl

/-- Claim C4 witness: the universal part applied to the concrete raw token
1_2 with the dot delimiter. -/
theorem C4_name_decoder_witness :
    decodePeerName (chars "Mesh_" ++ chars "1_2") (chars ".") =
      some (chars "node-to-node mesh", replaceUnderscores (chars ".") (chars "1_2")) :=
  C4_name_decoder.2.2 (chars "1_2") (chars ".") (by decide) (by decide)

/-- Claim C5: a record is produced only if the line splits into at least six
whitespace-separated tokens and the second token is the literal BGP marker;
lines failing either test are skipped (unmarshalBIRD returns none, not an
error). -/
theorem C5_guards : ∀ (line sep : List Char) (p : bgpPeer),
    unmarshalBIRD line sep = some p →
    6 ≤ (fields line).length ∧ (fields line).getD 1 [] = chars "BGP" := by
  intro line sep p h
  unfold unmarshalBIRD at h
  by_cases h6 : (fields line).length < 6
  · rw [if_pos h6] at h
    exact absurd h (by simp)
  · by_cases hb : (fields line).getD 1 [] = chars "BGP"
    · exact ⟨by omega, hb⟩
    · rw [if_neg h6, if_pos hb] at h
      exact absurd h (by simp)

/-- Claim C5 witness: the guards evaluated on a line that does parse. -/
theorem C5_guards_witness :
    6 ≤ (fields sampleLine).length ∧ (fields sampleLine).getD 1 [] = chars "BGP" :=
  C5_guards sampleLine (chars ".") samplePeer (by decide)

/-- Each header-shape check consumes one 2002-prefixed line of the stream, so
the number of checks in a scan is bounded by the number of 2002-prefixed
lines in the input. -/
theorem scanLinesChecks_le_countP (sep : List Char) : ∀ lines : List (List Char),
    scanLinesChecks sep lines ≤ lines.countP (fun l => startsWith (chars "2002") l) := by
  intro lines
  induction lines with
  | nil => simp [scanLinesChecks]
  | cons str rest ih =>
    rw [scanLinesChecks, List.countP_cons]
    have hc : 0 ≤ List.countP (fun l => startsWith (chars "2002") l) rest := Nat.zero_le _
    split_ifs <;> simp_all <;> omega

/-- Claim C6 counterexample: a stream with two well-formed header rows makes
the scan evaluate the header-shape comparison twice, so the validation is
not performed at most once per scan. -/
theorem C6_counterexample :
    scanLinesChecks (chars ".")
      [chars "2002 name proto table state since info",
       chars "2002 name proto table state since info"] = 2 := by
  decide

/-- Claim C6 (amended): the header-shape validation runs once per
2002-prefixed line the scan processes, so it runs at most once in any scan
whose input stream contains at most one 2002-prefixed line (as a conforming
response does); a stream with several 2002-prefixed lines is re-validated
on each of them. -/
theorem C6_amended (sep : List Char) (lines : List (List Char))
    (h : lines.countP (fun l => startsWith (chars "2002") l) ≤ 1) :
    scanLinesChecks sep lines ≤ 1 :=
  le_trans (scanLinesChecks_le_countP sep lines) h

/-- Claim C6 witness: a conforming stream with a single header row. -/
theorem C6_amended_witness :
    scanLinesChecks (chars ".")
      [chars "2002 name proto table state since info", chars "0000"] ≤ 1 :=
  C6_amended (chars ".")
    [chars "2002 name proto table state since info", chars "0000"] (by decide)

/-- Claim C7 counterexample: the line consisting of exactly 1002 has the 1002
prefix but length 4, so the slice str[5:] is out of bounds and the scan
fails at runtime instead of returning records or an error. -/
theorem C7_counterexample :
    scanBIRDPeers (chars "4") [chars "1002"] = ScanResult.sliceOutOfRange := by
  decide

/-- Claim C7 (amended): the scan never reaches the out-of-bounds slice on any
stream in which every 1002- or 2002-prefixed line is at least 5 characters
long; only a 1002- or 2002-prefixed line of length 4 triggers the runtime
failure. -/
theorem C7_amended (sep : List Char) : ∀ lines : List (List Char), ∀ acc : List bgpPeer,
    (∀ l ∈ lines,
      (startsWith (chars "1002") l = true ∨ startsWith (chars "2002") l = true) →
      5 ≤ l.length) →
    scanLines sep lines acc ≠ ScanResult.sliceOutOfRange := by
  intro lines
  induction lines with
  | nil =>
    intro acc h
    simp [scanLines]
  | cons str rest ih =>
    intro acc h
    have hrest : ∀ l ∈ rest,
        (startsWith (chars "1002") l = true ∨ startsWith (chars "2002") l = true) →
        5 ≤ l.length :=
      fun l hl => h l (List.mem_cons_of_mem _ hl)
    have hstr := h str (List.mem_cons_self _ _)
    rw [scanLines]
    by_cases h0 : startsWith (chars "0000") str = true
    · simp [h0]
    · rw [if_neg h0]
      by_cases h1 : startsWith (chars "0001") str = true
      · rw [if_pos h1]
        exact ih acc hrest
      · rw [if_neg h1]
        by_cases h2 : startsWith (chars "2002") str = true
        · rw [if_pos h2, if_neg (by have := hstr (Or.inr h2); omega)]
          by_cases hh : fields (str.drop 5) = birdExpectedHeadings
          · rw [if_pos hh]
            exact ih acc hrest
          · rw [if_neg hh]
            simp
        · rw [if_neg h2]
          by_cases h3 : startsWith (chars "1002") str = true
          · rw [if_pos h3, if_neg (by have := hstr (Or.inl h3); omega)]
            cases hu : unmarshalBIRD (str.drop 5) sep with
            | some p => exact ih (acc ++ [p]) hrest
            | none => exact ih acc hrest
          · rw [if_neg h3]
            by_cases hsp : startsWith [' '] str = true
            · rw [if_pos hsp]
              cases hu : unmarshalBIRD (str.drop 1) sep with
              | some p => exact ih (acc ++ [p]) hrest
              | none => exact ih acc hrest
            · rw [if_neg hsp]
              simp

/-- Claim C7 witness: the amended totality statement on a concrete stream in
which no 1002- or 2002-prefixed line is short. -/
theorem C7_amended_witness :
    scanLines (chars ".") [chars "0000"] [] ≠ ScanResult.sliceOutOfRange :=
  C7_amended (chars ".") [chars "0000"] [] (by decide)

/-- Claim C9: an empty peer sequence makes the caller emit the no-peers
message instead of invoking the table renderer, and a rendered table always
has at least one data row. -/
theorem C9_empty_render :
    renderPeers [] = RenderOutcome.noPeersMessage ∧
    ∀ (peers : List bgpPeer) (rows : List (List (List Char))),
      renderPeers peers = RenderOutcome.table rows → rows ≠ [] := by
  constructor
  · rfl
  · intro peers rows h
    cases peers with
    | nil => simp [renderPeers] at h
    | cons p ps =>
      rw [renderPeers, if_neg (by simp)] at h
      injection h with h
      subst h
      simp [printPeersRows]

/-- Claim C9 witness: a one-peer render produces a nonempty row list. -/
theorem C9_empty_render_witness : printPeersRows [samplePeer] ≠ [] :=
  C9_empty_render.2 [samplePeer] (printPeersRows [samplePeer]) rfl

/-- Claim C10: any line whose first four characters are 0000, whatever
follows them, terminates the scan successfully with exactly the records
accumulated so far; the rest of the stream is discarded. -/
theorem C10_sentinel (sep str : List Char) (rest : List (List Char)) (acc : List bgpPeer)
    (h : startsWith (chars "0000") str = true) :
    scanLines sep (str :: rest) acc = ScanResult.ok acc := by
  rw [scanLines, if_pos h]

/-- Claim C10 witness: a 0000junk line ends the scan at once, returning the
previously accumulated record and ignoring the rest of the stream. -/
theorem C10_sentinel_witness :
    scanLines (chars ".") [chars "0000junk", chars "junk"] [samplePeer] =
      ScanResult.ok [samplePeer] :=
  C10_sentinel (chars ".") (chars "0000junk") [chars "junk"] [samplePeer] (by decide)
